import Mathlib

/-!
Verification of the room/state-machine core of a peer-to-peer turn-based
game engine.  The engine coordinates peers over a replicated key-value
document; this file gives a shallow embedding of its data model, its typed
store (`StateData`), its event pipeline and its room facade, and proves the
stated properties about them.

Modelling conventions:
* `EndpointId` is the opaque participant identifier (rendered as a string
  in document keys), modelled as `String`.
* The replicated document stores postcard-serialised values under byte
  keys.  We model it at the typed level: each reserved key family becomes
  a field of `Doc`, holding the decoded value.  Per-key last-write-wins is
  modelled by replace-or-append updates on association lists.
* Fallible Rust functions returning `anyhow::Result<T>` become
  `Except String T`; the error strings reproduce the source messages.
* Writers in the source perform `doc.set_bytes` calls; each embedded
  operation returns the list of document writes it performs, in order,
  alongside its result, so that "no write is performed on this path"
  is directly expressible.
-/

set_option autoImplicit false

namespace P2PEngine

/-- Stable opaque identifier of a network participant (iroh `EndpointId`),
keyed and compared via its string rendering. -/
abbrev EndpointId := String

/-- `AppState` from `src/room/state.rs`: `Lobby | InGame | Paused | Finished`. -/
inductive AppState where
  | Lobby
  | InGame
  | Paused
  | Finished
deriving DecidableEq, Repr

/-- `PeerStatus` from `src/peer.rs`. -/
inductive PeerStatus where
  | Online
  | Offline
deriving DecidableEq, Repr

/-- `PeerProfile` from `src/peer.rs`: nickname plus optional avatar URL. -/
structure PeerProfile where
  nickname : String
  avatar : Option String
deriving DecidableEq, Repr

/-- `PeerInfo` from `src/peer.rs`: the peer record stored under `peer.<id>`. -/
structure PeerInfo where
  id : EndpointId
  profile : PeerProfile
  status : PeerStatus
  ready : Bool
  is_observer : Bool
deriving DecidableEq, Repr

/-- `PeerInfo::new` from `src/peer.rs` lines 50-60: a fresh record is
`Online`, not ready, and unconditionally marked as an observer. -/
def PeerInfo.new (id : EndpointId) (profile : PeerProfile) : PeerInfo :=
  { id := id
    profile := profile
    status := PeerStatus.Online
    ready := false
    is_observer := true }

/-- `ChatMessage` from `src/room/chat.rs` (timestamp in milliseconds). -/
structure ChatMessage where
  fromId : EndpointId
  message : String
  timestamp : Nat
deriving DecidableEq, Repr

section AssocOps

variable {K V : Type} [BEq K]

/-- Replace-or-append update of an association list: the model of a
per-key last-write-wins `set_bytes` on a keyed entry, and of
`HashMap::insert`. -/
def updAssoc : List (K × V) → K → V → List (K × V)
  | [], k, v => [(k, v)]
  | (k0, v0) :: rest, k, v =>
    if k0 == k then (k, v) :: rest else (k0, v0) :: updAssoc rest k v

/-- Remove a key from an association list (`HashMap::remove`). -/
def eraseAssoc : List (K × V) → K → List (K × V)
  | [], _ => []
  | (k0, v0) :: rest, k =>
    if k0 == k then rest else (k0, v0) :: eraseAssoc rest k

end AssocOps

/-- The typed view of the replicated document: one field per reserved key
family of the schema in `src/room/state.rs` (`app_state`, `game_state`,
`host_id`, `peer.<id>`, `join_request.<id>`, `quit_request.<id>`,
`action.<id>`, `chat.<ts>.<id>`).  `GS` is the game-state payload type and
`GA` the game-action payload type supplied by the game logic. -/
structure Doc (GS GA : Type) where
  appState : Option AppState
  gameState : Option GS
  hostId : Option EndpointId
  peers : List (EndpointId × PeerInfo)
  joinReqs : List (EndpointId × PeerProfile)
  quitReqs : List (EndpointId × String)
  actions : List (EndpointId × GA)
  chats : List (Nat × ChatMessage)

/-- The empty document, before any peer has written to it. -/
def Doc.empty {GS GA : Type} : Doc GS GA :=
  { appState := none
    gameState := none
    hostId := none
    peers := []
    joinReqs := []
    quitReqs := []
    actions := []
    chats := [] }

/-- A single `doc.set_bytes` performed by the engine, at the typed level.
Each constructor corresponds to one key family the engine writes
(`src/room/state/actions.rs` and `src/room.rs`). -/
inductive DocWrite (GS GA : Type) where
  | setApp (s : AppState)
  | setGame (g : GS)
  | setHost (id : EndpointId)
  | setPeer (id : EndpointId) (info : PeerInfo)
  | setJoinReq (id : EndpointId) (profile : PeerProfile)
  | setQuitReq (id : EndpointId) (reason : String)
  | setAction (id : EndpointId) (a : GA)
  | setChat (ts : Nat) (msg : ChatMessage)

/-- Apply one write to the document (last-write-wins per key; chat keys
are unique per (timestamp, sender) so they accumulate). -/
def applyWrite {GS GA : Type} (d : Doc GS GA) : DocWrite GS GA → Doc GS GA
  | .setApp s => { d with appState := some s }
  | .setGame g => { d with gameState := some g }
  | .setHost i => { d with hostId := some i }
  | .setPeer i info => { d with peers := updAssoc d.peers i info }
  | .setJoinReq i p => { d with joinReqs := updAssoc d.joinReqs i p }
  | .setQuitReq i r => { d with quitReqs := updAssoc d.quitReqs i r }
  | .setAction i a => { d with actions := updAssoc d.actions i a }
  | .setChat ts m => { d with chats := (ts, m) :: d.chats }

/-- Apply a sequence of writes in order. -/
def applyWrites {GS GA : Type} (d : Doc GS GA) : List (DocWrite GS GA) → Doc GS GA
  | [] => d
  | w :: ws => applyWrites (applyWrite d w) ws

/-! ### StateData queries (`src/room/state/queries.rs`) -/

/-- `StateData::is_peer_host`: compare the given id against the string
stored under `host_id`; `false` when that key is absent. -/
def isPeerHost {GS GA : Type} (d : Doc GS GA) (peerId : EndpointId) : Bool :=
  match d.hostId with
  | some h => peerId == h
  | none => false

/-- `StateData::is_host`: is our own endpoint the registered host? -/
def isHost {GS GA : Type} (me : EndpointId) (d : Doc GS GA) : Bool :=
  isPeerHost d me

/-- `StateData::get_host_id`. -/
def getHostId {GS GA : Type} (d : Doc GS GA) : Except String EndpointId :=
  match d.hostId with
  | some h => Except.ok h
  | none => Except.error "No HostId found"

/-- `StateData::get_app_state` (`src/room/state/queries.rs` lines 33-42):
if the local `host_disconnected` flag is set, return the synthetic
`Paused` before touching the document; otherwise decode the `app_state`
key, erroring when it is absent. -/
def getAppState {GS GA : Type} (hostDisconnected : Bool) (d : Doc GS GA) :
    Except String AppState :=
  if hostDisconnected then Except.ok AppState.Paused
  else
    match d.appState with
    | some s => Except.ok s
    | none => Except.error "No AppState found"

/-- `StateData::get_game_state`. -/
def getGameState {GS GA : Type} (d : Doc GS GA) : Except String GS :=
  match d.gameState with
  | some g => Except.ok g
  | none => Except.error "No GameState found"

/-- `StateData::get_peer_info`: look up the record stored under
`peer.<id>`, `none` when absent. -/
def getPeerInfo {GS GA : Type} (d : Doc GS GA) (peerId : EndpointId) :
    Option PeerInfo :=
  d.peers.lookup peerId

/-- Display name used in pipeline error messages:
`get_peer_info(..).unwrap_or_default()` rendered through `Display`
(the default record displays as "Unknown"). -/
def peerDisplayName {GS GA : Type} (d : Doc GS GA) (peerId : EndpointId) : String :=
  match getPeerInfo d peerId with
  | some info => info.profile.nickname
  | none => "Unknown"

/-- `StateData::get_peer_list` (`src/room/state/queries.rs` lines 54-84):
scan the `peer.` prefix into a map, then, when the local disconnect flag
is set and a host id is registered, patch the host's record (if present)
to `Offline` in the returned snapshot. -/
def getPeerList {GS GA : Type} (hostDisconnected : Bool) (d : Doc GS GA) :
    List (EndpointId × PeerInfo) :=
  let peers := d.peers
  if hostDisconnected then
    match getHostId d with
    | Except.ok h =>
      peers.map (fun p =>
        if p.1 == h then (p.1, { p.2 with status := PeerStatus.Offline }) else p)
    | Except.error _ => peers
  else peers

/-! ### Game logic contract (`src/logic.rs`)

The trait's associated error types are modelled as `String` (only their
`Display` rendering reaches this layer).  Rust's
`apply_action(&mut state, ..) -> Result<(), E>` mutates in place; we model
it as returning the updated state on success. -/

structure GameLogic (GS GA PR : Type) where
  assignRoles : List (EndpointId × PeerInfo) → List (EndpointId × PR)
  initialState : List (EndpointId × PR) → GS
  applyAction : GS → EndpointId → GA → Except String GS
  startConditionsMet : List (EndpointId × PeerInfo) → GS → Except String Unit

/-! ### StateData actions (`src/room/state/actions.rs`) -/

/-- `StateData::set_peer_status` (lines 56-63): look the peer up; if a
record exists, rewrite it with the new status; otherwise do nothing.
Either way the call succeeds. -/
def setPeerStatus {GS GA : Type} (d : Doc GS GA) (peerId : EndpointId)
    (status : PeerStatus) : Except String Unit × List (DocWrite GS GA) :=
  match getPeerInfo d peerId with
  | some info =>
    (Except.ok (), [DocWrite.setPeer peerId { info with status := status }])
  | none => (Except.ok (), [])

/-- `StateData::insert_peer` (lines 43-47): build a fresh record with
`PeerInfo::new` and write it under `peer.<id>` via `update_peer`. -/
def insertPeerWrites {GS GA : Type} (peerId : EndpointId) (profile : PeerProfile) :
    List (DocWrite GS GA) :=
  [DocWrite.setPeer peerId (PeerInfo.new peerId profile)]

/-- `StateData::announce_presence`: write the profile under
`join_request.<self>`. -/
def announcePresenceWrites {GS GA : Type} (me : EndpointId) (profile : PeerProfile) :
    List (DocWrite GS GA) :=
  [DocWrite.setJoinReq me profile]

/-- `StateData::announce_leave`: write the serialised reason under
`quit_request.<self>` (the trailing grace sleep has no document effect). -/
def announceLeaveWrites {GS GA : Type} (me : EndpointId) (reason : String) :
    List (DocWrite GS GA) :=
  [DocWrite.setQuitReq me reason]

/-- `StateData::submit_action`: write the action under `action.<self>`
(per-endpoint singleton, newer actions overwrite older ones). -/
def submitActionWrites {GS GA : Type} (me : EndpointId) (a : GA) :
    List (DocWrite GS GA) :=
  [DocWrite.setAction me a]

/-! ### Chat keys (`src/room/state/actions.rs` lines 28-41)

`send_chat` builds the key `format!("chat.{}.{}", timestamp, endpoint_id)`
where the timestamp is a `u64` millisecond count rendered in decimal.  We
model keys as lists of byte values. -/

/-- UTF-8/ASCII byte values of a string (all characters involved in the
key schema are ASCII, where char values and byte values coincide). -/
def strBytes (s : String) : List Nat :=
  s.toList.map Char.toNat

/-- Fuel-driven helper for `decimalRepr` (structural recursion so that
concrete keys evaluate by kernel reduction; the fuel never runs out when
it starts at the number itself). -/
def decimalReprAux : Nat → Nat → List Nat
  | 0, n => [48 + n]
  | fuel+1, n => if n < 10 then [48 + n] else decimalReprAux fuel (n / 10) ++ [48 + n % 10]

/-- The decimal rendering of a natural number as ASCII digit bytes,
most significant digit first: the model of Rust's `Display for u64`. -/
def decimalRepr (n : Nat) : List Nat := decimalReprAux n n

/-- The chat key `chat.<timestamp>.<endpointId>` as a byte list
(46 is the ASCII dot). -/
def chatKeyBytes (ts : Nat) (endpointId : EndpointId) : List Nat :=
  strBytes "chat." ++ decimalRepr ts ++ [46] ++ strBytes endpointId

/-- Strict lexicographic comparison on byte lists, as performed by the
underlying store on raw keys. -/
def byteLexLt : List Nat → List Nat → Bool
  | _, [] => false
  | [], _ :: _ => true
  | a :: as, b :: bs => decide (a < b) || (a == b && byteLexLt as bs)

/-- `StateData::send_chat`: one write of the message under its chat key. -/
def sendChatWrites {GS GA : Type} (me : EndpointId) (ts : Nat) (text : String) :
    List (DocWrite GS GA) :=
  [DocWrite.setChat ts { fromId := me, message := text, timestamp := ts }]

/-! ### The room facade (`src/room.rs`) -/

/-- `GameRoom::start_game` (`src/room.rs` lines 64-81).  Inputs: the
caller's endpoint id, its local `host_disconnected` flag, and the current
document.  Output: the call's result and the ordered list of document
writes it performs.  The source sequence is: host check, app-state check
(`get_app_state` is host-disconnect-aware through `Deref`), read the peer
list, assign roles, build the initial state, gate on
`start_conditions_met`, then write `game_state` followed by
`app_state = InGame`. -/
def startGame {GS GA PR : Type} (L : GameLogic GS GA PR) (me : EndpointId)
    (hostDisconnected : Bool) (d : Doc GS GA) :
    Except String Unit × List (DocWrite GS GA) :=
  if !(isHost me d) then
    (Except.error "Only the host can start the game", [])
  else
    match getAppState hostDisconnected d with
    | Except.error e => (Except.error e, [])
    | Except.ok s =>
      if s ≠ AppState.Lobby then
        (Except.error "Game has already started", [])
      else
        let players := getPeerList hostDisconnected d
        let roles := L.assignRoles players
        let initState := L.initialState roles
        match L.startConditionsMet players initState with
        | Except.error e => (Except.error e, [])
        | Except.ok _ =>
          (Except.ok (), [DocWrite.setGame initState, DocWrite.setApp AppState.InGame])

/-- `GameRoom::create` (`src/room.rs` lines 84-98): the host immediately
writes `app_state = Lobby` and then claims the host key. -/
def createWrites {GS GA : Type} (me : EndpointId) : List (DocWrite GS GA) :=
  [DocWrite.setApp AppState.Lobby, DocWrite.setHost me]

/-! ### The event pipeline (`src/room/events.rs`) -/

/-- `HostEvent`: host liveness / reassignment notifications to the UI. -/
inductive HostEvent where
  | online
  | offline
  | changed (newHost : PeerInfo)
deriving DecidableEq, Repr

/-- `UiEvent`: the events the pipeline sends to the game UI. -/
inductive UiEvent (GS : Type) where
  | peerList (peers : List (EndpointId × PeerInfo))
  | gameStateEv (g : GS)
  | appStateEv (s : AppState)
  | chatEv (sender : PeerInfo) (msg : ChatMessage)
  | hostEv (e : HostEvent)
  | errorEv (msg : String)

/-- `process_entry`, join branch (`src/room/events.rs` lines 160-177).
The entry's key is `join_request.<id>`; `joinerId` is the (fallible)
endpoint-id parse from the key, `payload` the (fallible) decode of the
profile carried by the entry.  A non-host ignores the entry outright; the
host inserts a fresh peer record via `insert_peer` and emits no UI event
(the resulting `peer.<id>` live event produces the peer-list update). -/
def processJoinEntry {GS GA : Type} (d : Doc GS GA) (me : EndpointId)
    (joinerId : Except String EndpointId) (payload : Option PeerProfile) :
    Except String (Option (UiEvent GS)) × List (DocWrite GS GA) :=
  if !(isHost me d) then (Except.ok none, [])
  else
    match joinerId with
    | Except.error e => (Except.error e, [])
    | Except.ok jid =>
      match payload with
      | none =>
        (Except.error ("Failed to parse PeerInfo for " ++ jid), [])
      | some profile =>
        (Except.ok none, insertPeerWrites jid profile)

/-- `process_entry`, action-request branch (`src/room/events.rs` lines
178-205).  The entry's key is `action.<id>`.  A non-host ignores it.  The
host loads the current game state (propagating "No GameState found" when
absent), decodes the action payload, applies the game logic, and on
success writes the new authoritative state; on any failure it returns an
error (naming the requesting peer for decode and logic failures) and
writes nothing. -/
def processActionEntry {GS GA PR : Type} (L : GameLogic GS GA PR) (d : Doc GS GA)
    (me : EndpointId) (requesterId : Except String EndpointId)
    (payload : Option GA) :
    Except String (Option (UiEvent GS)) × List (DocWrite GS GA) :=
  if !(isHost me d) then (Except.ok none, [])
  else
    match requesterId with
    | Except.error e => (Except.error e, [])
    | Except.ok rid =>
      match getGameState d with
      | Except.error e => (Except.error e, [])
      | Except.ok st =>
        match payload with
        | none =>
          (Except.error ("Failed to parse GameAction from " ++ peerDisplayName d rid), [])
        | some a =>
          match L.applyAction st rid a with
          | Except.error e =>
            (Except.error ("Invalid action from " ++ peerDisplayName d rid ++ ": " ++ e), [])
          | Except.ok st2 => (Except.ok none, [DocWrite.setGame st2])

/-- The `NetworkEvent::Update` arm of the event loop (`src/room/events.rs`
lines 80-94): an `Ok(Some(event))` from `process_entry` is sent to the UI
channel, `Ok(None)` sends nothing, and an `Err(e)` is printed to stderr
("Error processing event: {e}") without sending any UI event.  The result
is (events sent to the UI, stderr log lines). -/
def updateArmOutput {GS : Type} (r : Except String (Option (UiEvent GS))) :
    List (UiEvent GS) × List String :=
  match r with
  | Except.error e => ([], ["Error processing event: " ++ e])
  | Except.ok none => ([], [])
  | Except.ok (some ev) => ([ev], [])

/-- The event loop's handling of an action-request `Update`: run the
action branch of `process_entry`, then route its result through the
`Update` arm.  Output: (UI events sent, document writes, stderr log). -/
def actionUpdateArm {GS GA PR : Type} (L : GameLogic GS GA PR) (d : Doc GS GA)
    (me : EndpointId) (requesterId : Except String EndpointId)
    (payload : Option GA) :
    List (UiEvent GS) × List (DocWrite GS GA) × List String :=
  let out := processActionEntry L d me requesterId payload
  let sent := updateArmOutput out.1
  (sent.1, out.2, sent.2)

/-- The `NetworkEvent::Joiner(id)` arm of the event loop
(`src/room/events.rs` lines 95-110): the host sets the peer's stored
status to `Online` (best-effort); a non-host only reacts when the joiner
is the current host, clearing the local disconnect flag and emitting
`Host(Online)`.  Output: (document writes, new local flag, UI events). -/
def joinerArm {GS GA : Type} (d : Doc GS GA) (me : EndpointId)
    (hostDisconnected : Bool) (joiner : EndpointId) :
    List (DocWrite GS GA) × Bool × List (UiEvent GS) :=
  if isHost me d then
    ((setPeerStatus d joiner PeerStatus.Online).2, hostDisconnected, [])
  else if isPeerHost d joiner then
    ([], false, [UiEvent.hostEv HostEvent.online])
  else ([], hostDisconnected, [])

/-- The `NetworkEvent::Leaver(id)` arm of the event loop
(`src/room/events.rs` lines 111-125): symmetric to `joinerArm`, setting
`Offline`, and a non-host sets the local disconnect flag and emits
`Host(Offline)` when the leaver is the current host. -/
def leaverArm {GS GA : Type} (d : Doc GS GA) (me : EndpointId)
    (hostDisconnected : Bool) (leaver : EndpointId) :
    List (DocWrite GS GA) × Bool × List (UiEvent GS) :=
  if isHost me d then
    ((setPeerStatus d leaver PeerStatus.Offline).2, hostDisconnected, [])
  else if isPeerHost d leaver then
    ([], true, [UiEvent.hostEv HostEvent.offline])
  else ([], hostDisconnected, [])

/-! ### NetworkEvent normalisation (`src/room/events.rs` lines 260-300) -/

/-- A document entry as seen by the pipeline: the raw key plus the
content hash addressing its payload blob. -/
structure Entry where
  key : List Nat
  contentHash : Nat
deriving DecidableEq, Repr

/-- `iroh_docs::ContentStatus`. -/
inductive ContentStatus where
  | Complete
  | Incomplete
  | Missing
deriving DecidableEq, Repr

/-- The substrate's `LiveEvent` stream items consumed by
`NetworkEvent::parse`; `otherEvent` stands for the remaining variants
matched by the wildcard arm. -/
inductive LiveEvent where
  | insertLocal (entry : Entry)
  | insertRemote (entry : Entry) (status : ContentStatus)
  | contentReady (hash : Nat)
  | neighborUp (id : EndpointId)
  | neighborDown (id : EndpointId)
  | syncFinished (result : Except String Unit)
  | otherEvent
deriving Repr

/-- The normalised `NetworkEvent` of the pipeline. -/
inductive NetworkEvent where
  | update (entry : Entry)
  | joiner (id : EndpointId)
  | leaver (id : EndpointId)
  | syncFailed (reason : String)
  | syncSucceeded
deriving DecidableEq, Repr

/-- `NetworkEvent::parse` over the pending-entries map (modelled as an
association list keyed by content hash).  Local inserts and remote
inserts with `Complete` content yield `Update` immediately; remote
inserts with `Missing`/`Incomplete` content are parked under their
content hash; `ContentReady(hash)` releases (and removes) the parked
entry if any; neighbor signals become `Joiner`/`Leaver`; sync completion
becomes a success/failure signal; everything else is dropped.  Returns
the produced event (if any) and the updated pending map. -/
def parseNetworkEvent (ev : LiveEvent) (pending : List (Nat × Entry)) :
    Option NetworkEvent × List (Nat × Entry) :=
  match ev with
  | LiveEvent.insertLocal e => (some (NetworkEvent.update e), pending)
  | LiveEvent.insertRemote e ContentStatus.Complete =>
    (some (NetworkEvent.update e), pending)
  | LiveEvent.insertRemote e ContentStatus.Missing =>
    (none, updAssoc pending e.contentHash e)
  | LiveEvent.insertRemote e ContentStatus.Incomplete =>
    (none, updAssoc pending e.contentHash e)
  | LiveEvent.contentReady h =>
    match pending.lookup h with
    | some e => (some (NetworkEvent.update e), eraseAssoc pending h)
    | none => (none, pending)
  | LiveEvent.neighborUp i => (some (NetworkEvent.joiner i), pending)
  | LiveEvent.neighborDown i => (some (NetworkEvent.leaver i), pending)
  | LiveEvent.syncFinished (Except.ok _) => (some NetworkEvent.syncSucceeded, pending)
  | LiveEvent.syncFinished (Except.error r) => (some (NetworkEvent.syncFailed r), pending)
  | LiveEvent.otherEvent => (none, pending)

/-! ### Keypair persistence (`src/iroh.rs` lines 154-173)

Paths are modelled as component lists; the parent of a path drops its
last component (`Path::parent`, `None` for an empty path).  A filesystem
is modelled by an existence predicate and a contents map; `load_secret_key`
returns the obtained key together with the ordered list of filesystem
mutations/reads it performs.  `canonicalize` is a pure path query with no
filesystem effect and is modelled as the identity fallback the source
uses. -/

/-- A filesystem path as a list of components. -/
abbrev FsPath := List String

/-- `Path::parent`. -/
def parentOf (p : FsPath) : Option FsPath :=
  match p with
  | [] => none
  | _ :: _ => some p.dropLast

/-- A filesystem operation performed by `load_secret_key`. -/
inductive FsOp where
  | readFile (path : FsPath)
  | createDirAll (path : FsPath)
  | writeFile (path : FsPath) (contents : List Nat)
  | renameFile (src dst : FsPath)
deriving DecidableEq, Repr

/-- Is this operation a rename? -/
def FsOp.isRename : FsOp → Bool
  | FsOp.renameFile _ _ => true
  | _ => false

/-- `load_secret_key` (`src/iroh.rs` lines 154-173).  With no path, a
random key is generated and no file is touched.  With a path: if the file
exists, its first 32 bytes are read back as the secret key; otherwise a
fresh key is generated, the parent directory is created, and the key
bytes are written directly to the key path.  `fileExists`/`fileContents`
describe the filesystem seen by the call and `freshKey` the 32 random
bytes `SecretKey::generate` would produce. -/
def loadSecretKey (keyPath : Option FsPath) (fileExists : FsPath → Bool)
    (fileContents : FsPath → List Nat) (freshKey : List Nat) :
    Except String (List Nat) × List FsOp :=
  match keyPath with
  | none => (Except.ok freshKey, [])
  | some p =>
    if fileExists p then
      (Except.ok ((fileContents p).take 32), [FsOp.readFile p])
    else
      match parentOf p with
      | none => (Except.error ("no parent directory found"), [])
      | some par =>
        (Except.ok freshKey, [FsOp.createDirAll par, FsOp.writeFile p freshKey])

/-! ### Reachable documents

`Reach L d` holds when the document state `d` can be produced by engine
participants performing the embedded operations, starting from the empty
document.  Writes are linearised (the substrate's per-key LWW picks one
order); each operation contributes its write list, and *every prefix* of
an operation's writes yields a reachable document, so states between the
two writes of `start_game` are covered.  Constructors are parameterised
by the acting endpoint `p` and its local `host_disconnected` flag, so the
relation covers every participant of a room, host or not. -/

inductive Reach {GS GA PR : Type} (L : GameLogic GS GA PR) : Doc GS GA → Prop where
  | start : Reach L Doc.empty
  | opCreate (d : Doc GS GA) (p : EndpointId) (k : Nat) :
      Reach L d → Reach L (applyWrites d ((createWrites p).take k))
  | opStartGame (d : Doc GS GA) (p : EndpointId) (flag : Bool) (k : Nat) :
      Reach L d → Reach L (applyWrites d ((startGame L p flag d).2.take k))
  | opJoinEntry (d : Doc GS GA) (p : EndpointId)
      (jid : Except String EndpointId) (payload : Option PeerProfile) (k : Nat) :
      Reach L d → Reach L (applyWrites d ((processJoinEntry d p jid payload).2.take k))
  | opActionEntry (d : Doc GS GA) (p : EndpointId)
      (rid : Except String EndpointId) (payload : Option GA) (k : Nat) :
      Reach L d → Reach L (applyWrites d ((processActionEntry L d p rid payload).2.take k))
  | opSetPeerStatus (d : Doc GS GA) (target : EndpointId) (status : PeerStatus) (k : Nat) :
      Reach L d → Reach L (applyWrites d ((setPeerStatus d target status).2.take k))
  | opAnnounce (d : Doc GS GA) (p : EndpointId) (profile : PeerProfile) (k : Nat) :
      Reach L d → Reach L (applyWrites d ((announcePresenceWrites p profile).take k))
  | opLeave (d : Doc GS GA) (p : EndpointId) (reason : String) (k : Nat) :
      Reach L d → Reach L (applyWrites d ((announceLeaveWrites p reason).take k))
  | opSubmit (d : Doc GS GA) (p : EndpointId) (a : GA) (k : Nat) :
      Reach L d → Reach L (applyWrites d ((submitActionWrites p a).take k))
  | opChat (d : Doc GS GA) (p : EndpointId) (ts : Nat) (text : String) (k : Nat) :
      Reach L d → Reach L (applyWrites d ((sendChatWrites p ts text).take k))

/-- The document invariant used below: whenever `app_state` holds
`InGame` a `game_state` entry exists, and the synthetic `Paused` (and the
engine-unwritten `Finished`) never appear under `app_state`. -/
def DocInv {GS GA : Type} (d : Doc GS GA) : Prop :=
  (d.appState = some AppState.InGame → d.gameState.isSome = true) ∧
  d.appState ≠ some AppState.Paused

/-! ### Helper lemmas: the document invariant is preserved -/

section InvariantLemmas

variable {GS GA PR : Type}

lemma docInv_of_fields_eq {d d' : Doc GS GA} (hApp : d'.appState = d.appState)
    (hGame : d'.gameState = d.gameState) (h : DocInv d) : DocInv d' := by
  refine ⟨?_, ?_⟩
  · intro hin
    rw [hGame]
    exact h.1 (by rw [← hApp]; exact hin)
  · rw [hApp]
    exact h.2

lemma docInv_setGame (d : Doc GS GA) (g : GS) (h : DocInv d) :
    DocInv (applyWrite d (DocWrite.setGame g)) := by
  refine ⟨?_, ?_⟩
  · intro _
    simp [applyWrite]
  · simpa [applyWrite] using h.2

lemma docInv_setAppLobby (d : Doc GS GA) :
    DocInv (applyWrite d (DocWrite.setApp AppState.Lobby)) := by
  refine ⟨?_, ?_⟩ <;> simp [applyWrite]

/-- A write that touches neither `app_state` nor `game_state` preserves
the invariant. -/
lemma docInv_otherWrite (d : Doc GS GA) (w : DocWrite GS GA)
    (hw : ∀ s, w ≠ DocWrite.setApp s) (hg : ∀ g, w ≠ DocWrite.setGame g)
    (h : DocInv d) : DocInv (applyWrite d w) := by
  cases w with
  | setApp s => exact absurd rfl (hw s)
  | setGame g => exact absurd rfl (hg g)
  | setHost i => exact docInv_of_fields_eq rfl rfl h
  | setPeer i info => exact docInv_of_fields_eq rfl rfl h
  | setJoinReq i p => exact docInv_of_fields_eq rfl rfl h
  | setQuitReq i r => exact docInv_of_fields_eq rfl rfl h
  | setAction i a => exact docInv_of_fields_eq rfl rfl h
  | setChat ts m => exact docInv_of_fields_eq rfl rfl h

lemma docInv_setPeer (d : Doc GS GA) (i : EndpointId) (info : PeerInfo)
    (h : DocInv d) : DocInv (applyWrite d (DocWrite.setPeer i info)) :=
  docInv_of_fields_eq rfl rfl h

lemma docInv_setHost (d : Doc GS GA) (i : EndpointId) (h : DocInv d) :
    DocInv (applyWrite d (DocWrite.setHost i)) :=
  docInv_of_fields_eq rfl rfl h

/-- Shape of the write list of `start_game`: nothing on the error paths,
and exactly `game_state` then `app_state = InGame` on success. -/
lemma startGame_writes_shape (L : GameLogic GS GA PR) (p : EndpointId)
    (flag : Bool) (d : Doc GS GA) :
    (startGame L p flag d).2 = [] ∨
    ∃ g, (startGame L p flag d).2 =
      [DocWrite.setGame g, DocWrite.setApp AppState.InGame] := by
  unfold startGame
  split
  · left; rfl
  · split
    · left; rfl
    · split
      · left; rfl
      · dsimp only
        split
        · left; rfl
        · right; exact ⟨_, rfl⟩

/-- On success, `start_game` performs exactly the two writes, initial
game state first, `app_state = InGame` second. -/
lemma startGame_ok_writes (L : GameLogic GS GA PR) (p : EndpointId)
    (flag : Bool) (d : Doc GS GA) :
    (startGame L p flag d).1 = Except.ok () →
    (startGame L p flag d).2 =
      [DocWrite.setGame (L.initialState (L.assignRoles (getPeerList flag d))),
       DocWrite.setApp AppState.InGame] := by
  unfold startGame
  split
  · intro h; simp at h
  · split
    · intro h; simp at h
    · split
      · intro h; simp at h
      · dsimp only
        split
        · intro h; simp at h
        · intro _; rfl

/-- Shape of the write list of the action branch of `process_entry`:
nothing on every non-success path, a single `game_state` write on
success. -/
lemma processActionEntry_writes_shape (L : GameLogic GS GA PR) (d : Doc GS GA)
    (me : EndpointId) (rid : Except String EndpointId) (payload : Option GA) :
    (processActionEntry L d me rid payload).2 = [] ∨
    ∃ g, (processActionEntry L d me rid payload).2 = [DocWrite.setGame g] := by
  unfold processActionEntry
  split
  · left; rfl
  · split
    · left; rfl
    · split
      · left; rfl
      · split
        · left; rfl
        · split
          · left; rfl
          · right; exact ⟨_, rfl⟩

/-- Shape of the write list of the join branch of `process_entry`. -/
lemma processJoinEntry_writes_shape (d : Doc GS GA) (me : EndpointId)
    (jid : Except String EndpointId) (payload : Option PeerProfile) :
    (processJoinEntry d me jid payload).2 = [] ∨
    ∃ i info, (processJoinEntry d me jid payload).2 =
      [DocWrite.setPeer i info] := by
  unfold processJoinEntry
  split
  · left; rfl
  · split
    · left; rfl
    · split
      · left; rfl
      · right; exact ⟨_, _, rfl⟩

/-- Shape of the write list of `set_peer_status`. -/
lemma setPeerStatus_writes_shape (d : Doc GS GA) (target : EndpointId)
    (status : PeerStatus) :
    (setPeerStatus d target status).2 = [] ∨
    ∃ i info, (setPeerStatus d target status).2 = [DocWrite.setPeer i info] := by
  unfold setPeerStatus
  split
  · right; exact ⟨_, _, rfl⟩
  · left; rfl

/-- Invariant preservation along any prefix of the two ordered writes of
a successful `start_game`. -/
lemma docInv_startPair (d : Doc GS GA) (g : GS) (k : Nat) (h : DocInv d) :
    DocInv (applyWrites d
      (([DocWrite.setGame g, DocWrite.setApp AppState.InGame] :
        List (DocWrite GS GA)).take k)) := by
  match k with
  | 0 => simpa [applyWrites] using h
  | 1 =>
    simpa [applyWrites] using docInv_setGame d g h
  | Nat.succ (Nat.succ n) =>
    simp only [List.take, applyWrites]
    refine ⟨?_, ?_⟩ <;> simp [applyWrite, applyWrites]

/-- Invariant preservation along any prefix of a single invariant-safe
write. -/
lemma docInv_singleTake (d : Doc GS GA) (w : DocWrite GS GA) (k : Nat)
    (hpres : DocInv d → DocInv (applyWrite d w)) (h : DocInv d) :
    DocInv (applyWrites d (([w] : List (DocWrite GS GA)).take k)) := by
  match k with
  | 0 => simpa [applyWrites] using h
  | Nat.succ n => simpa [applyWrites] using hpres h

/-- The empty document satisfies the invariant. -/
lemma docInv_empty : DocInv (Doc.empty : Doc GS GA) := by
  refine ⟨?_, ?_⟩ <;> simp [Doc.empty]

/-- Every reachable document satisfies the invariant: `app_state = InGame`
implies a `game_state` entry exists, and `app_state` never holds the
synthetic `Paused`. -/
lemma reach_docInv {L : GameLogic GS GA PR} {d : Doc GS GA} (h : Reach L d) :
    DocInv d := by
  induction h with
  | start => exact docInv_empty
  | opCreate d p k _ ih =>
    match k with
    | 0 => simpa [applyWrites, createWrites] using ih
    | 1 =>
      simpa [applyWrites, createWrites] using docInv_setAppLobby d
    | Nat.succ (Nat.succ n) =>
      simp only [createWrites, List.take, List.take_nil, applyWrites]
      exact docInv_setHost _ p (docInv_setAppLobby d)
  | opStartGame d p flag k _ ih =>
    rcases startGame_writes_shape L p flag d with hsh | ⟨g, hsh⟩
    · rw [hsh]; simpa [applyWrites] using ih
    · rw [hsh]; exact docInv_startPair d g k ih
  | opJoinEntry d p jid payload k _ ih =>
    rcases processJoinEntry_writes_shape d p jid payload with hsh | ⟨i, info, hsh⟩
    · rw [hsh]; simpa [applyWrites] using ih
    · rw [hsh]
      exact docInv_singleTake d _ k (docInv_setPeer d i info) ih
  | opActionEntry d p rid payload k _ ih =>
    rcases processActionEntry_writes_shape L d p rid payload with hsh | ⟨g, hsh⟩
    · rw [hsh]; simpa [applyWrites] using ih
    · rw [hsh]
      exact docInv_singleTake d _ k (docInv_setGame d g) ih
  | opSetPeerStatus d target status k _ ih =>
    rcases setPeerStatus_writes_shape d target status with hsh | ⟨i, info, hsh⟩
    · rw [hsh]; simpa [applyWrites] using ih
    · rw [hsh]
      exact docInv_singleTake d _ k (docInv_setPeer d i info) ih
  | opAnnounce d p profile k _ ih =>
    exact docInv_singleTake d _ k (fun hh => docInv_of_fields_eq rfl rfl hh) ih
  | opLeave d p reason k _ ih =>
    exact docInv_singleTake d _ k (fun hh => docInv_of_fields_eq rfl rfl hh) ih
  | opSubmit d p a k _ ih =>
    exact docInv_singleTake d _ k (fun hh => docInv_of_fields_eq rfl rfl hh) ih
  | opChat d p ts text k _ ih =>
    exact docInv_singleTake d _ k (fun hh => docInv_of_fields_eq rfl rfl hh) ih

end InvariantLemmas

/-! ### Helper lemmas: chat key ordering -/

section ChatKeyLemmas

lemma decimalReprAux_fuel {f1 f2 n : Nat} (h1 : n ≤ f1) (h2 : n ≤ f2) :
    decimalReprAux f1 n = decimalReprAux f2 n := by
  induction f1 using Nat.strong_induction_on generalizing f2 n with
  | _ f1 ih =>
    match f1, f2 with
    | 0, 0 => rfl
    | 0, g+1 =>
      interval_cases n
      all_goals simp [decimalReprAux]
    | g+1, 0 =>
      interval_cases n
      all_goals simp [decimalReprAux]
    | g1+1, g2+1 =>
      simp only [decimalReprAux]
      by_cases h : n < 10
      · simp [h]
      · simp only [h, if_false]
        have hd : n / 10 ≤ g1 := by omega
        have hd2 : n / 10 ≤ g2 := by
          have : n / 10 < n := Nat.div_lt_self (by omega) (by omega)
          omega
        rw [ih g1 (by omega) hd hd2]

/-- The recurrence satisfied by `decimalRepr`: one decimal digit for
numbers below ten, otherwise the rendering of the quotient followed by
the last digit. -/
lemma decimalRepr_rec (n : Nat) :
    decimalRepr n = if n < 10 then [48 + n] else decimalRepr (n / 10) ++ [48 + n % 10] := by
  by_cases h : n < 10
  · simp only [h, if_true, decimalRepr]
    cases n with
    | zero => rfl
    | succ m => simp [decimalReprAux, h]
  · simp only [h, if_false, decimalRepr]
    obtain ⟨m, rfl⟩ : ∃ m, n = m + 1 := ⟨n - 1, by omega⟩
    simp only [decimalReprAux, h, if_false]
    have hlt : (m + 1) / 10 < m + 1 := Nat.div_lt_self (by omega) (by omega)
    rw [decimalReprAux_fuel (show (m+1)/10 ≤ m by omega) (le_refl _)]

lemma byteLexLt_append_of_lt :
    ∀ (a b s t : List Nat), a.length = b.length → byteLexLt a b = true →
      byteLexLt (a ++ s) (b ++ t) = true := by
  intro a
  induction a with
  | nil =>
    intro b s t hlen hlt
    cases b with
    | nil => simp [byteLexLt] at hlt
    | cons y ys => simp at hlen
  | cons x xs ih =>
    intro b s t hlen hlt
    cases b with
    | nil => simp [byteLexLt] at hlt
    | cons y ys =>
      simp only [byteLexLt, Bool.or_eq_true, decide_eq_true_eq, Bool.and_eq_true,
        beq_iff_eq] at hlt
      simp only [List.cons_append, byteLexLt, Bool.or_eq_true, decide_eq_true_eq,
        Bool.and_eq_true, beq_iff_eq]
      rcases hlt with hxy | ⟨heq, hrec⟩
      · exact Or.inl hxy
      · exact Or.inr ⟨heq, ih ys s t (by simpa using hlen) hrec⟩

lemma byteLexLt_same_append (pre a b : List Nat) :
    byteLexLt (pre ++ a) (pre ++ b) = byteLexLt a b := by
  induction pre with
  | nil => rfl
  | cons x rest ih =>
    simp [byteLexLt, ih]

lemma decimalRepr_length_pos (n : Nat) : 0 < (decimalRepr n).length := by
  rw [decimalRepr_rec]
  split <;> simp

/-- Equal-length decimal renderings compare lexicographically exactly as
the numbers compare. -/
lemma decimalRepr_lt_of_lt :
    ∀ n m : Nat, m < n → (decimalRepr m).length = (decimalRepr n).length →
      byteLexLt (decimalRepr m) (decimalRepr n) = true := by
  intro n
  induction n using Nat.strong_induction_on with
  | _ n ih =>
    intro m hlt hlen
    by_cases hn : n < 10
    · have hm : m < 10 := by omega
      rw [decimalRepr_rec m, decimalRepr_rec n]
      simp [hm, hn, byteLexLt, hlt]
    · by_cases hm : m < 10
      · exfalso
        rw [decimalRepr_rec m, decimalRepr_rec n] at hlen
        simp only [hm, hn, if_true, if_false] at hlen
        have := decimalRepr_length_pos (n / 10)
        simp only [List.length_append, List.length_singleton] at hlen
        omega
      · rw [decimalRepr_rec m, decimalRepr_rec n]
        simp only [hm, hn, if_false]
        have hlen2 : (decimalRepr (m / 10)).length = (decimalRepr (n / 10)).length := by
          rw [decimalRepr_rec m, decimalRepr_rec n] at hlen
          simp only [hm, hn, if_false] at hlen
          simpa using hlen
        rcases Nat.lt_or_ge (m / 10) (n / 10) with hdiv | hdiv
        · exact byteLexLt_append_of_lt _ _ _ _ hlen2
            (ih (n / 10) (Nat.div_lt_self (by omega) (by omega)) (m / 10) hdiv hlen2)
        · have hdeq : m / 10 = n / 10 := by
            have : m / 10 ≤ n / 10 := Nat.div_le_div_right (by omega)
            omega
          rw [hdeq, byteLexLt_same_append]
          have hmod : m % 10 < n % 10 := by
            have h1 := Nat.div_add_mod m 10
            have h2 := Nat.div_add_mod n 10
            omega
          simp [byteLexLt, hmod]

lemma strBytes_inj {a b : String} (h : strBytes a = strBytes b) : a = b := by
  have hinj : Function.Injective Char.toNat := by
    intro c1 c2 hc
    exact Char.eq_of_val_eq (UInt32.ext hc)
  have h2 : a.toList = b.toList := List.map_injective_iff.mpr hinj h
  cases a; cases b; exact congrArg String.mk h2

end ChatKeyLemmas

/-! ### Concrete instances used by the closed witnesses

`CounterLogic` mirrors the repository's `TestGame` (`tests/common.rs`): a
single shared counter, every action increments it, a game can always
start.  `RejectLogic` is the same game with a logic that rejects every
action, exercising the host-side rejection path. -/

def CounterLogic : GameLogic Nat Unit Unit :=
  { assignRoles := fun peers => peers.map (fun p => (p.1, ()))
    initialState := fun _ => 0
    applyAction := fun st _ _ => Except.ok (st + 1)
    startConditionsMet := fun _ _ => Except.ok () }

def RejectLogic : GameLogic Nat Unit Unit :=
  { assignRoles := fun peers => peers.map (fun p => (p.1, ()))
    initialState := fun _ => 0
    applyAction := fun _ _ _ => Except.error "rejected"
    startConditionsMet := fun _ _ => Except.error "Not enough players" }

/-- A lobby-phase document: the host `"h"` created the room (wrote
`app_state = Lobby` and claimed `host_id`). -/
def lobbyDoc : Doc Nat Unit :=
  applyWrites Doc.empty (createWrites "h")

/-! ### Claims -/

/-- C1: `get_app_state` returns the synthetic `Paused` when the local
`host_disconnected` flag is set, without consulting the document (the
result is the same for every document); with the flag clear it returns
the decoded `app_state` value, erroring when the key is absent; and on
every document reachable by engine writes (which never put `Paused` under
`app_state`), `Paused` is returned iff the flag is set. -/
theorem claim_C1_get_app_state_paused {GS GA PR : Type} (L : GameLogic GS GA PR)
    (d : Doc GS GA) (flag : Bool) :
    (getAppState true d = Except.ok AppState.Paused) ∧
    (getAppState false d = match d.appState with
      | some s => Except.ok s
      | none => Except.error "No AppState found") ∧
    (Reach L d → (getAppState flag d = Except.ok AppState.Paused ↔ flag = true)) := by
  refine ⟨by simp [getAppState], by simp [getAppState], ?_⟩
  intro hr
  constructor
  · intro hp
    cases flag with
    | true => rfl
    | false =>
      exfalso
      have hnp := (reach_docInv hr).2
      simp only [getAppState, Bool.false_eq_true, if_false] at hp
      cases hd : d.appState with
      | none => rw [hd] at hp; cases hp
      | some s =>
        rw [hd] at hp
        cases hp
        exact hnp hd
  · intro hf
    subst hf
    simp [getAppState]

/-- C1 witness: at the empty document (reachable as the initial state)
with the flag clear, `get_app_state` does not return `Paused`; with the
flag set it does. -/
theorem claim_C1_witness :
    (getAppState true (Doc.empty : Doc Nat Unit) = Except.ok AppState.Paused) ∧
    ¬ (getAppState false (Doc.empty : Doc Nat Unit) = Except.ok AppState.Paused) := by
  have h := claim_C1_get_app_state_paused CounterLogic (Doc.empty : Doc Nat Unit) false
  refine ⟨h.1, ?_⟩
  intro hp
  have := (h.2.2 Reach.start).mp hp
  cases this

/-- C2: on success `start_game` performs exactly two writes, the initial
`game_state` strictly before `app_state = InGame`; consequently every
document reachable by engine writes satisfies: `app_state = InGame`
implies a `game_state` entry exists. -/
theorem claim_C2_state_before_ingame {GS GA PR : Type} (L : GameLogic GS GA PR)
    (p : EndpointId) (flag : Bool) (d : Doc GS GA) :
    ((startGame L p flag d).1 = Except.ok () →
      (startGame L p flag d).2 =
        [DocWrite.setGame (L.initialState (L.assignRoles (getPeerList flag d))),
         DocWrite.setApp AppState.InGame]) ∧
    (∀ d2 : Doc GS GA, Reach L d2 → d2.appState = some AppState.InGame →
      d2.gameState.isSome = true) :=
  ⟨startGame_ok_writes L p flag d,
   fun _ h hin => (reach_docInv h).1 hin⟩

/-- C2 witness: the host `"h"` creates a room and successfully starts the
counter game; the resulting document (reachable by construction) has
`app_state = InGame`, and the theorem yields that `game_state` exists. -/
theorem claim_C2_witness :
    ((startGame CounterLogic "h" false lobbyDoc).1 = Except.ok ()) ∧
    (applyWrites lobbyDoc ((startGame CounterLogic "h" false lobbyDoc).2.take 2)).gameState.isSome
      = true := by
  have hreach : Reach CounterLogic
      (applyWrites lobbyDoc ((startGame CounterLogic "h" false lobbyDoc).2.take 2)) := by
    have h0 : Reach CounterLogic lobbyDoc := by
      have := Reach.opCreate (L := CounterLogic) Doc.empty "h" 2 Reach.start
      simpa [lobbyDoc] using this
    exact Reach.opStartGame lobbyDoc "h" false 2 h0
  refine ⟨rfl, ?_⟩
  exact (claim_C2_state_before_ingame CounterLogic "h" false lobbyDoc).2 _ hreach (by decide)

/-- C3: `start_game` fails, performing no document write, when the caller
is not the registered host, when the stored `app_state` is not `Lobby`
(also covering an absent key and the flag-synthesised `Paused`), or when
`start_conditions_met` rejects. -/
theorem claim_C3_start_game_guards {GS GA PR : Type} (L : GameLogic GS GA PR)
    (p : EndpointId) (flag : Bool) (d : Doc GS GA) :
    (isHost p d = false →
      startGame L p flag d = (Except.error "Only the host can start the game", [])) ∧
    (d.appState ≠ some AppState.Lobby →
      (∃ e, (startGame L p flag d).1 = Except.error e) ∧ (startGame L p flag d).2 = []) ∧
    (∀ e, L.startConditionsMet (getPeerList flag d)
        (L.initialState (L.assignRoles (getPeerList flag d))) = Except.error e →
      (∃ e2, (startGame L p flag d).1 = Except.error e2) ∧ (startGame L p flag d).2 = []) := by
  refine ⟨?_, ?_, ?_⟩
  · intro hh
    simp [startGame, hh]
  · intro hna
    unfold startGame
    split
    · exact ⟨⟨_, rfl⟩, rfl⟩
    · cases flag with
      | true =>
        simp only [getAppState, if_true]
        simp
      | false =>
        simp only [getAppState, Bool.false_eq_true, if_false]
        cases hd : d.appState with
        | none => simp
        | some s =>
          have hs : s ≠ AppState.Lobby := by
            intro hs
            exact hna (by rw [hd, hs])
          simp [hs]
  · intro e hcond
    unfold startGame
    split
    · exact ⟨⟨_, rfl⟩, rfl⟩
    · split
      · exact ⟨⟨_, rfl⟩, rfl⟩
      · split
        · exact ⟨⟨_, rfl⟩, rfl⟩
        · dsimp only
          rw [hcond]
          exact ⟨⟨_, rfl⟩, rfl⟩

/-- C3 witness: a non-host caller is refused; a document already
`InGame` is refused with no writes; rejecting start conditions are
refused with no writes. -/
theorem claim_C3_witness :
    (startGame CounterLogic "x" false lobbyDoc =
      (Except.error "Only the host can start the game", [])) ∧
    ((∃ e, (startGame CounterLogic "h" false
        (applyWrite lobbyDoc (DocWrite.setApp AppState.InGame))).1 = Except.error e) ∧
      (startGame CounterLogic "h" false
        (applyWrite lobbyDoc (DocWrite.setApp AppState.InGame))).2 = []) ∧
    ((∃ e2, (startGame RejectLogic "h" false lobbyDoc).1 = Except.error e2) ∧
      (startGame RejectLogic "h" false lobbyDoc).2 = []) := by
  refine ⟨?_, ?_, ?_⟩
  · exact (claim_C3_start_game_guards CounterLogic "x" false lobbyDoc).1 (by decide)
  · exact (claim_C3_start_game_guards CounterLogic "h" false
      (applyWrite lobbyDoc (DocWrite.setApp AppState.InGame))).2.1 (by decide)
  · exact (claim_C3_start_game_guards RejectLogic "h" false lobbyDoc).2.2
      "Not enough players" rfl

/-- An in-game document: `app_state = InGame`, an initial counter state,
host `"h"`, and one registered peer `"a"` named alice. -/
def inGameDoc : Doc Nat Unit :=
  { appState := some AppState.InGame
    gameState := some 0
    hostId := some "h"
    peers := [("a", PeerInfo.new "a" { nickname := "alice", avatar := none })]
    joinReqs := []
    quitReqs := []
    actions := []
    chats := [] }

/-- C4 counterexample: the host processes a `Join("j")` while the
document is still in the lobby; the record written has
`is_observer = true` even though `app_state ≠ InGame`, refuting
"`is_observer` iff the current `AppState` is `InGame`" (the join path
never consults `app_state`, and `PeerInfo::new` hard-codes
`is_observer: true`). -/
theorem claim_C4_counterexample :
    (processJoinEntry lobbyDoc "h" (Except.ok "j")
        (some { nickname := "joe", avatar := none })).2 =
      [DocWrite.setPeer "j" (PeerInfo.new "j" { nickname := "joe", avatar := none })] ∧
    ¬ ((PeerInfo.new "j" { nickname := "joe", avatar := none }).is_observer = true ↔
        lobbyDoc.appState = some AppState.InGame) := by
  refine ⟨rfl, ?_⟩
  intro h
  exact absurd (h.mp rfl) (by decide)

/-- C4 (amended): when the host processes a `Join(id)` entry it writes a
peer record for `id` whose status is `Online` and whose `is_observer`
field is always `true`, regardless of the current `AppState`; a non-host
processing a `Join` entry writes nothing. -/
theorem claim_C4_join_record {GS GA : Type} (d : Doc GS GA) (me jid : EndpointId)
    (profile : PeerProfile) (jres : Except String EndpointId)
    (payload : Option PeerProfile) :
    (isHost me d = false → processJoinEntry d me jres payload = (Except.ok none, [])) ∧
    (isHost me d = true →
      processJoinEntry d me (Except.ok jid) (some profile) =
        (Except.ok none, [DocWrite.setPeer jid (PeerInfo.new jid profile)]) ∧
      (PeerInfo.new jid profile).status = PeerStatus.Online ∧
      (PeerInfo.new jid profile).is_observer = true) := by
  constructor
  · intro hh
    simp [processJoinEntry, hh]
  · intro hh
    refine ⟨?_, rfl, rfl⟩
    simp [processJoinEntry, hh, insertPeerWrites]

/-- C4 witness: the non-host `"x"` ignores a join; the host `"h"` writes
the fresh record for `"j"`. -/
theorem claim_C4_witness :
    (processJoinEntry lobbyDoc "x" (Except.ok "j")
        (some { nickname := "joe", avatar := none }) = (Except.ok none, [])) ∧
    (processJoinEntry lobbyDoc "h" (Except.ok "j")
        (some { nickname := "joe", avatar := none }) =
      (Except.ok none,
        [DocWrite.setPeer "j" (PeerInfo.new "j" { nickname := "joe", avatar := none })])) := by
  constructor
  · exact (claim_C4_join_record lobbyDoc "x" "j" { nickname := "joe", avatar := none }
      (Except.ok "j") (some { nickname := "joe", avatar := none })).1 (by decide)
  · exact ((claim_C4_join_record lobbyDoc "h" "j" { nickname := "joe", avatar := none }
      (Except.ok "j") (some { nickname := "joe", avatar := none })).2 (by decide)).1

/-- C5 counterexample: the host processes an `ActionRequest("a")` whose
action the game logic rejects.  The game state is not written, but no UI
event at all is sent — the error (which does name the offending peer) is
only printed to stderr by the event loop's `Update` arm, refuting "a UI
error event ... is emitted". -/
theorem claim_C5_counterexample :
    (RejectLogic.applyAction 0 "a" () = Except.error "rejected") ∧
    (actionUpdateArm RejectLogic inGameDoc "h" (Except.ok "a") (some ())).1 = [] ∧
    (actionUpdateArm RejectLogic inGameDoc "h" (Except.ok "a") (some ())).2.1 = [] ∧
    (actionUpdateArm RejectLogic inGameDoc "h" (Except.ok "a") (some ())).2.2 =
      ["Error processing event: Invalid action from alice: rejected"] :=
  ⟨rfl, rfl, rfl, rfl⟩

/-- C5 (amended): when the host processes an `ActionRequest(id)`: if
`apply_action` succeeds the new state is written to `game_state` (and
nothing is sent or logged); if `apply_action` fails or the payload fails
to decode, an error naming the offending peer is logged to stderr by the
event loop; if no game state exists yet, the "No GameState found" error
(not naming the peer) is logged.  In every failure case no UI event is
sent and `game_state` is not written. -/
theorem claim_C5_action_rejection {GS GA PR : Type} (L : GameLogic GS GA PR)
    (d : Doc GS GA) (me rid : EndpointId) (a : GA) (st st2 : GS) (e : String) :
    (isHost me d = true → getGameState d = Except.ok st →
      L.applyAction st rid a = Except.ok st2 →
      actionUpdateArm L d me (Except.ok rid) (some a) =
        ([], [DocWrite.setGame st2], [])) ∧
    (isHost me d = true → getGameState d = Except.ok st →
      L.applyAction st rid a = Except.error e →
      actionUpdateArm L d me (Except.ok rid) (some a) =
        ([], [],
          ["Error processing event: "
            ++ ("Invalid action from " ++ peerDisplayName d rid ++ ": " ++ e)])) ∧
    (isHost me d = true → getGameState d = Except.error e →
      actionUpdateArm L d me (Except.ok rid) (some a) =
        ([], [], ["Error processing event: " ++ e])) ∧
    (isHost me d = true → getGameState d = Except.ok st →
      actionUpdateArm L d me (Except.ok rid) none =
        ([], [],
          ["Error processing event: "
            ++ ("Failed to parse GameAction from " ++ peerDisplayName d rid)])) := by
  refine ⟨?_, ?_, ?_, ?_⟩
  · intro hh hgs happ
    simp [actionUpdateArm, processActionEntry, updateArmOutput, hh, hgs, happ]
  · intro hh hgs happ
    simp [actionUpdateArm, processActionEntry, updateArmOutput, hh, hgs, happ,
      String.append_assoc]
  · intro hh hgs
    simp [actionUpdateArm, processActionEntry, updateArmOutput, hh, hgs]
  · intro hh hgs
    simp [actionUpdateArm, processActionEntry, updateArmOutput, hh, hgs,
      String.append_assoc]

/-- C5 witness: on `inGameDoc`, a counter increment is applied and
written; a rejected action, a missing game state, and an undecodable
payload each produce only a stderr log and no write. -/
theorem claim_C5_witness :
    (actionUpdateArm CounterLogic inGameDoc "h" (Except.ok "a") (some ()) =
      ([], [DocWrite.setGame 1], [])) ∧
    (actionUpdateArm RejectLogic inGameDoc "h" (Except.ok "a") (some ()) =
      ([], [], ["Error processing event: Invalid action from alice: rejected"])) ∧
    (actionUpdateArm CounterLogic { inGameDoc with gameState := none } "h"
        (Except.ok "a") (some ()) =
      ([], [], ["Error processing event: No GameState found"])) ∧
    (actionUpdateArm CounterLogic inGameDoc "h" (Except.ok "a") none =
      ([], [], ["Error processing event: Failed to parse GameAction from alice"])) := by
  refine ⟨?_, ?_, ?_, ?_⟩
  · exact (claim_C5_action_rejection CounterLogic inGameDoc "h" "a" () 0 1 "").1
      (by decide) rfl rfl
  · have h := (claim_C5_action_rejection RejectLogic inGameDoc "h" "a" () 0 0 "rejected").2.1
      (by decide) rfl rfl
    exact h
  · have h := (claim_C5_action_rejection CounterLogic
      { inGameDoc with gameState := none } "h" "a" () 0 0 "No GameState found").2.2.1
      (by decide) rfl
    exact h
  · have h := (claim_C5_action_rejection CounterLogic inGameDoc "h" "a" () 0 0 "").2.2.2
      (by decide) rfl
    exact h

/-- C6: normalisation rules of `NetworkEvent::parse`: local inserts and
remote inserts with `Complete` content yield `Update` immediately;
remote inserts with `Missing`/`Incomplete` content yield nothing and are
parked under their content hash; `ContentReady(hash)` yields `Update(e)`
exactly when an entry `e` is parked under that hash (removing it) and
nothing otherwise; `NeighborUp`/`NeighborDown` become
`Joiner`/`Leaver`. -/
theorem claim_C6_event_normalisation (e : Entry) (pending : List (Nat × Entry))
    (h : Nat) (i : EndpointId) :
    (parseNetworkEvent (LiveEvent.insertLocal e) pending =
      (some (NetworkEvent.update e), pending)) ∧
    (parseNetworkEvent (LiveEvent.insertRemote e ContentStatus.Complete) pending =
      (some (NetworkEvent.update e), pending)) ∧
    (parseNetworkEvent (LiveEvent.insertRemote e ContentStatus.Missing) pending =
      (none, updAssoc pending e.contentHash e)) ∧
    (parseNetworkEvent (LiveEvent.insertRemote e ContentStatus.Incomplete) pending =
      (none, updAssoc pending e.contentHash e)) ∧
    (∀ e2, pending.lookup h = some e2 →
      parseNetworkEvent (LiveEvent.contentReady h) pending =
        (some (NetworkEvent.update e2), eraseAssoc pending h)) ∧
    (pending.lookup h = none →
      parseNetworkEvent (LiveEvent.contentReady h) pending = (none, pending)) ∧
    (parseNetworkEvent (LiveEvent.neighborUp i) pending =
      (some (NetworkEvent.joiner i), pending)) ∧
    (parseNetworkEvent (LiveEvent.neighborDown i) pending =
      (some (NetworkEvent.leaver i), pending)) := by
  refine ⟨rfl, rfl, rfl, rfl, ?_, ?_, rfl, rfl⟩
  · intro e2 hl
    simp [parseNetworkEvent, hl]
  · intro hl
    simp [parseNetworkEvent, hl]

/-- C6 witness: a concrete deferral round trip — a remote insert with
missing content parks the entry, and the later `ContentReady` for its
hash releases it as `Update` while an unrelated hash releases nothing. -/
theorem claim_C6_witness :
    (parseNetworkEvent (LiveEvent.insertRemote { key := [1], contentHash := 7 }
        ContentStatus.Missing) [] =
      (none, [(7, { key := [1], contentHash := 7 })])) ∧
    (parseNetworkEvent (LiveEvent.contentReady 7)
        [(7, { key := [1], contentHash := 7 })] =
      (some (NetworkEvent.update { key := [1], contentHash := 7 }), [])) ∧
    (parseNetworkEvent (LiveEvent.contentReady 8)
        [(7, { key := [1], contentHash := 7 })] =
      (none, [(7, { key := [1], contentHash := 7 })])) := by
  refine ⟨?_, ?_, ?_⟩
  · exact (claim_C6_event_normalisation { key := [1], contentHash := 7 } [] 7 "i").2.2.1
  · exact (claim_C6_event_normalisation { key := [1], contentHash := 7 }
      [(7, { key := [1], contentHash := 7 })] 7 "i").2.2.2.2.1
      { key := [1], contentHash := 7 } (by decide)
  · exact (claim_C6_event_normalisation { key := [1], contentHash := 7 }
      [(7, { key := [1], contentHash := 7 })] 8 "i").2.2.2.2.2.1 (by decide)

/-! ### Helper lemmas: peer-list lookups through the host patch -/

lemma lookup_cons_self {V : Type} (k : EndpointId) (v : V) (tl : List (EndpointId × V)) :
    List.lookup k ((k, v) :: tl) = some v := by
  simp [List.lookup]

lemma lookup_cons_ne {V : Type} (a k : EndpointId) (v : V) (tl : List (EndpointId × V))
    (h : a ≠ k) : List.lookup a ((k, v) :: tl) = List.lookup a tl := by
  have hb : (a == k) = false := by simp [h]
  simp [List.lookup, hb]

lemma lookup_map_patch_self (l : List (EndpointId × PeerInfo)) (h : EndpointId)
    (info : PeerInfo) (hl : l.lookup h = some info) :
    (l.map (fun p =>
      if p.1 == h then (p.1, { p.2 with status := PeerStatus.Offline }) else p)).lookup h
      = some { info with status := PeerStatus.Offline } := by
  induction l with
  | nil => cases hl
  | cons hd tl ih =>
    obtain ⟨k, v⟩ := hd
    rw [List.map_cons]
    by_cases hk : h = k
    · subst hk
      rw [lookup_cons_self] at hl
      cases hl
      rw [if_pos (by simp)]
      exact lookup_cons_self _ _ _
    · rw [lookup_cons_ne _ _ _ _ hk] at hl
      by_cases hkh : k = h
      · exact absurd hkh.symm hk
      · rw [if_neg (by simpa using hkh)]
        rw [lookup_cons_ne _ _ _ _ hk]
        exact ih hl

lemma lookup_map_patch_other (l : List (EndpointId × PeerInfo)) (h othId : EndpointId)
    (hne : othId ≠ h) :
    (l.map (fun p =>
      if p.1 == h then (p.1, { p.2 with status := PeerStatus.Offline }) else p)).lookup othId
      = l.lookup othId := by
  induction l with
  | nil => rfl
  | cons hd tl ih =>
    obtain ⟨k, v⟩ := hd
    rw [List.map_cons]
    by_cases hk : k = h
    · subst hk
      rw [if_pos (by simp)]
      rw [lookup_cons_ne _ _ _ _ hne, lookup_cons_ne _ _ _ _ hne]
      exact ih
    · rw [if_neg (by simpa using hk)]
      by_cases ho : othId = k
      · subst ho
        rw [lookup_cons_self, lookup_cons_self]
      · rw [lookup_cons_ne _ _ _ _ ho, lookup_cons_ne _ _ _ _ ho]
        exact ih

/-- C7: while the local `host_disconnected` flag is set, `get_peer_list`
returns the host's stored record with its status patched to `Offline`
(whatever status the document records), and every other peer's record
exactly as stored. -/
theorem claim_C7_peer_list_host_offline {GS GA : Type} (d : Doc GS GA)
    (h : EndpointId) (info : PeerInfo) :
    getHostId d = Except.ok h →
    ((getPeerInfo d h = some info →
      (getPeerList true d).lookup h = some { info with status := PeerStatus.Offline }) ∧
    (∀ othId, othId ≠ h → (getPeerList true d).lookup othId = d.peers.lookup othId)) := by
  intro hhost
  have hlist : getPeerList true d = d.peers.map (fun p =>
      if p.1 == h then (p.1, { p.2 with status := PeerStatus.Offline }) else p) := by
    simp [getPeerList, hhost]
  constructor
  · intro hinfo
    rw [hlist]
    exact lookup_map_patch_self d.peers h info hinfo
  · intro othId hne
    rw [hlist]
    exact lookup_map_patch_other d.peers h othId hne

/-- An in-game document with host `"h"` (stored `Online`) and a second
peer `"b"`, as a client would hold it right before the host's
neighbor-down signal sets the local disconnect flag. -/
def inGameDocHosted : Doc Nat Unit :=
  { appState := some AppState.InGame
    gameState := some 0
    hostId := some "h"
    peers := [("h", PeerInfo.new "h" { nickname := "hank", avatar := none }),
              ("b", PeerInfo.new "b" { nickname := "bob", avatar := none })]
    joinReqs := []
    quitReqs := []
    actions := []
    chats := [] }

/-- C7 witness: on a document whose host `"h"` is stored `Online`
alongside peer `"b"`, the snapshot under the disconnect flag shows `"h"`
as `Offline` and `"b"` unchanged. -/
theorem claim_C7_witness :
    ((getPeerList true inGameDocHosted).lookup "h" =
      some { PeerInfo.new "h" { nickname := "hank", avatar := none } with
              status := PeerStatus.Offline }) ∧
    ((getPeerList true inGameDocHosted).lookup "b" =
      some (PeerInfo.new "b" { nickname := "bob", avatar := none })) := by
  have h := claim_C7_peer_list_host_offline inGameDocHosted "h"
    (PeerInfo.new "h" { nickname := "hank", avatar := none }) rfl
  refine ⟨h.1 rfl, ?_⟩
  rw [h.2 "b" (by decide)]
  rfl

/-- C8 counterexample: timestamps 9 < 10, but the chat key for 9 does
*not* compare lexicographically below the chat key for 10 (the decimal
renderings have different lengths, and byte 57 `'9'` sorts above byte
49 `'1'`), refuting ordering for arbitrary timestamp pairs. -/
theorem claim_C8_counterexample :
    (9 < 10) ∧
    byteLexLt (chatKeyBytes 9 "a") (chatKeyBytes 10 "b") = false ∧
    byteLexLt (chatKeyBytes 10 "b") (chatKeyBytes 9 "a") = true :=
  ⟨by decide, by decide, by decide⟩

/-- C8 (amended): for chat-message timestamps whose decimal renderings
have equal length (true of all real millisecond clocks in the same
epoch-digit era), `t1 < t2` makes the produced keys
`chat.<timestamp>.<endpointId>` compare in the same order under
lexicographic byte comparison; and keys for equal timestamps from
distinct endpoints are always distinct. -/
theorem claim_C8_chat_key_order (t1 t2 : Nat) (e1 e2 : EndpointId) :
    ((decimalRepr t1).length = (decimalRepr t2).length → t1 < t2 →
      byteLexLt (chatKeyBytes t1 e1) (chatKeyBytes t2 e2) = true) ∧
    (t1 = t2 → e1 ≠ e2 → chatKeyBytes t1 e1 ≠ chatKeyBytes t2 e2) := by
  constructor
  · intro hlen hlt
    unfold chatKeyBytes
    rw [List.append_assoc, List.append_assoc, List.append_assoc, List.append_assoc,
      byteLexLt_same_append]
    exact byteLexLt_append_of_lt _ _ _ _ hlen (decimalRepr_lt_of_lt t2 t1 hlt hlen)
  · intro heq hne h
    subst heq
    unfold chatKeyBytes at h
    rw [List.append_assoc, List.append_assoc, List.append_assoc, List.append_assoc] at h
    have h2 := List.append_cancel_left h
    have h3 := List.append_cancel_left h2
    have h4 := List.append_cancel_left h3
    exact hne (strBytes_inj h4)

/-- C8 witness: equal-length timestamps 123 < 124 produce ordered keys;
equal timestamps from endpoints `"a"` and `"b"` produce distinct keys. -/
theorem claim_C8_witness :
    ((decimalRepr 123).length = (decimalRepr 124).length ∧
      byteLexLt (chatKeyBytes 123 "a") (chatKeyBytes 124 "b") = true) ∧
    chatKeyBytes 123 "a" ≠ chatKeyBytes 123 "b" := by
  refine ⟨⟨by decide, (claim_C8_chat_key_order 123 124 "a" "b").1 (by decide) (by decide)⟩, ?_⟩
  exact (claim_C8_chat_key_order 123 123 "a" "b").2 rfl (by decide)

/-- The keypair path used by `Iroh::persistent`: `<root>/keypair`. -/
def keypairPath : FsPath := ["store", "keypair"]

/-- C9 counterexample: with no existing keypair file, `load_secret_key`
creates the parent directory and writes the fresh key bytes *directly*
to the keypair path — its operation list contains no temporary-file
write and no rename, refuting the claimed atomic temp-file-then-rename
creation. -/
theorem claim_C9_counterexample :
    (loadSecretKey (some keypairPath) (fun _ => false) (fun _ => [])
        (List.replicate 32 7)).2 =
      [FsOp.createDirAll ["store"], FsOp.writeFile keypairPath (List.replicate 32 7)] ∧
    ((loadSecretKey (some keypairPath) (fun _ => false) (fun _ => [])
        (List.replicate 32 7)).2.all (fun op => !op.isRename)) = true :=
  ⟨rfl, rfl⟩

/-- C9 (amended): when a persistent store path is used and no keypair
file exists, the generated key bytes are written directly to the keypair
path after creating its parent directory (no temp file, no rename); when
the keypair file already exists, its first 32 bytes are read back as the
secret key and the file is not written. -/
theorem claim_C9_keypair_persistence (p par : FsPath) (fe : FsPath → Bool)
    (fc : FsPath → List Nat) (freshKey : List Nat) :
    (fe p = true →
      loadSecretKey (some p) fe fc freshKey =
        (Except.ok ((fc p).take 32), [FsOp.readFile p])) ∧
    (fe p = false → parentOf p = some par →
      loadSecretKey (some p) fe fc freshKey =
        (Except.ok freshKey, [FsOp.createDirAll par, FsOp.writeFile p freshKey])) := by
  constructor
  · intro h
    simp [loadSecretKey, h]
  · intro h hpar
    simp [loadSecretKey, h, hpar]

/-- C9 witness: both branches evaluated at `<store>/keypair`. -/
theorem claim_C9_witness :
    (loadSecretKey (some keypairPath) (fun _ => true) (fun _ => List.replicate 40 3)
        (List.replicate 32 7) =
      (Except.ok (List.replicate 32 3), [FsOp.readFile keypairPath])) ∧
    (loadSecretKey (some keypairPath) (fun _ => false) (fun _ => [])
        (List.replicate 32 7) =
      (Except.ok (List.replicate 32 7),
        [FsOp.createDirAll ["store"], FsOp.writeFile keypairPath (List.replicate 32 7)])) := by
  constructor
  · have h := (claim_C9_keypair_persistence keypairPath ["store"] (fun _ => true)
      (fun _ => List.replicate 40 3) (List.replicate 32 7)).1 rfl
    simpa using h
  · exact (claim_C9_keypair_persistence keypairPath ["store"] (fun _ => false)
      (fun _ => []) (List.replicate 32 7)).2 rfl rfl

/-- C10: `set_peer_status` for an endpoint with no stored peer record
returns `Ok` and performs no document write; consequently the host's
`Joiner`/`Leaver` handling for an endpoint that never announced presence
leaves the document unchanged. -/
theorem claim_C10_set_peer_status_noop {GS GA : Type} (d : Doc GS GA)
    (pid me : EndpointId) (status : PeerStatus) (flag : Bool) :
    getPeerInfo d pid = none →
    (setPeerStatus d pid status = (Except.ok (), []) ∧
      applyWrites d (joinerArm d me flag pid).1 = d ∧
      applyWrites d (leaverArm d me flag pid).1 = d) := by
  intro h
  have hsp : ∀ st, setPeerStatus d pid st = (Except.ok (), []) := by
    intro st
    simp [setPeerStatus, h]
  refine ⟨hsp status, ?_, ?_⟩
  · unfold joinerArm
    split
    · rw [hsp PeerStatus.Online]
      rfl
    · split <;> rfl
  · unfold leaverArm
    split
    · rw [hsp PeerStatus.Offline]
      rfl
    · split <;> rfl

/-- C10 witness: on the freshly created lobby document (no peer records
at all), setting a status for the unknown endpoint `"z"` succeeds and
leaves the document untouched, as do the Joiner/Leaver arms. -/
theorem claim_C10_witness :
    setPeerStatus lobbyDoc "z" PeerStatus.Offline = (Except.ok (), []) ∧
    applyWrites lobbyDoc (joinerArm lobbyDoc "h" false "z").1 = lobbyDoc ∧
    applyWrites lobbyDoc (leaverArm lobbyDoc "h" false "z").1 = lobbyDoc :=
  claim_C10_set_peer_status_noop lobbyDoc "z" "h" PeerStatus.Offline false rfl

end P2PEngine




